import Mathlib

/-!
Verification of the query-suggestion ranking service (`src/app.py`).

This file shallowly embeds the pure core of the service in Lean 4:
candidate construction (`build_candidates`), query expansion and hybrid
scoring (`hybrid_rank`), the signal booster (`processCand` and its
component boosts), the suggestion rewriter (`rewrite_with_intent`,
`detect_intent`), the TTL result cache and the top-level pipeline
(`rank_candidates`), and the HTTP handler skeleton (`suggest`).

Modelling conventions:
* Python floats are modelled by `ℚ` (no claim here depends on rounding of
  binary floating point).
* Values on which Python `float(...)` is called but which may be malformed
  are modelled by `FloatLike`; `pyFloat` is `float(...)`, raising (= `Except.error`)
  on a malformed value.  Numeric strings that `float` accepts are folded into
  `FloatLike.num`.
* External collaborators (sentence embedding, BM25, spaCy NER) are opaque
  function parameters collected in `Collab`.  `calculate_distance` is pure
  haversine trigonometry in the source; since real trigonometric functions
  are noncomputable, it is likewise passed as an opaque parameter `dist`
  (every geo claim quantifies over it, or fixes a concrete stand-in).
* Python truthiness is made explicit: `none`, `0`, `""` and `[]` are falsy.
* String helpers (`pyLower`, `pyIn`, `pyStrip`, `pySplitComma`, `strLe`)
  re-implement the exact ASCII behaviour of `str.lower`, the `in` operator,
  `str.strip`, `str.split(",")` and `<=` on `"HH:MM"` strings, using only
  structural recursion so that the kernel can evaluate them.
-/

/- Batteries marks the `Rat` field operations `@[irreducible]`, which blocks
`decide`-style evaluation of the concrete pipeline runs used as witnesses below.
Restoring the default reducibility is sound (attributes never reach the kernel)
and only affects elaboration inside this file. -/
set_option allowUnsafeReducibility true
attribute [semireducible] Rat.add Rat.mul Rat.sub Rat.inv

/-! ## Python string primitives -/

/-- ASCII lower-casing of one character, as Python `str.lower` does on ASCII
(the service only ever compares ASCII catalog text). -/
def lowerCh (c : Char) : Char :=
  if 'A' ≤ c ∧ c ≤ 'Z' then Char.ofNat (c.toNat + 32) else c

/-- Python `s.lower()` (ASCII fragment). -/
def pyLower (s : String) : String :=
  String.mk (s.data.map lowerCh)

/-- Does the character list `n` occur at the start of `h`? -/
def subAt : List Char → List Char → Bool
  | [], _ => true
  | _ :: _, [] => false
  | a :: n, b :: h => a = b && subAt n h

/-- Does `n` occur anywhere inside `h`? -/
def hasSub (n : List Char) : List Char → Bool
  | [] => subAt n []
  | b :: h => subAt n (b :: h) || hasSub n h

/-- Python `needle in hay` on strings (substring containment; `"" in s` is true). -/
def pyIn (needle hay : String) : Bool :=
  hasSub needle.data hay.data

/-- Whitespace stripped by Python `str.strip()` (ASCII fragment). -/
def isWS (c : Char) : Bool :=
  c = ' ' || c = '\t' || c = '\n' || c = '\r' || c = '\x0b' || c = '\x0c'

/-- Python `s.strip()`. -/
def pyStrip (s : String) : String :=
  String.mk (((s.data.dropWhile isWS).reverse.dropWhile isWS).reverse)

/-- Helper for `pySplitComma`: split a character list at commas. -/
def splitCommaAux (cur : List Char) : List Char → List (List Char)
  | [] => [cur.reverse]
  | c :: cs =>
    if c = ',' then cur.reverse :: splitCommaAux [] cs
    else splitCommaAux (c :: cur) cs

/-- Python `s.split(",")`; note `"".split(",") = [""]`. -/
def pySplitComma (s : String) : List String :=
  (splitCommaAux [] s.data).map String.mk

/-- Lexicographic `<=` on character lists (Python string comparison by code point). -/
def lexLeCh : List Char → List Char → Bool
  | [], _ => true
  | _ :: _, [] => false
  | a :: as, b :: bs => if a = b then lexLeCh as bs else decide (a < b)

/-- Python `s1 <= s2` on strings, used for the lexicographic `"HH:MM"` comparison in
`_is_open_now`. -/
def strLe (a b : String) : Bool :=
  lexLeCh a.data b.data

/-- Python `" ".join(parts)`. -/
def joinSp : List String → String
  | [] => ""
  | [s] => s
  | s :: rest => s ++ " " ++ joinSp rest

/-- Truthiness of an optional string (Python: `None` and `""` are falsy). -/
def truthyS (o : Option String) : Bool :=
  (o.getD "") ≠ ""

/-- Truthiness of an optional number (Python: `None` and `0` are falsy).  This is
exactly the test `if user_lat and user_lon` performs on caller coordinates. -/
def truthyQ (o : Option ℚ) : Bool :=
  match o with
  | some q => q ≠ 0
  | none => false

/-! ## Tokenizer

`tokenize` reimplements `_word_re.findall(text)` followed by `.lower()` per token,
for the regex `[a-zA-Z][a-zA-Z-']+` (an ASCII letter followed by one or more
letters, hyphens or apostrophes; single letters do not match). -/

/-- Is `c` an ASCII letter (regex class `[a-zA-Z]`)? -/
def isAlphaCh (c : Char) : Bool :=
  ('a' ≤ c ∧ c ≤ 'z') || ('A' ≤ c ∧ c ≤ 'Z')

/-- Is `c` in the regex tail class (letters, hyphen, apostrophe)? -/
def isWordTail (c : Char) : Bool :=
  isAlphaCh c || c = '-' || c = Char.ofNat 39

/-- Regex scanner for `[a-zA-Z][a-zA-Z-']+` with maximal munch.  The state is
`none` outside a potential match and `some (h, acc)` inside one, where `h` is the
leading letter and `acc` the reversed tail collected so far. -/
def scanTok : Option (Char × List Char) → List Char → List (List Char)
  | none, [] => []
  | some (h, acc), [] => if acc = [] then [] else [h :: acc.reverse]
  | none, c :: cs =>
    if isAlphaCh c then scanTok (some (c, [])) cs else scanTok none cs
  | some (h, acc), c :: cs =>
    if isWordTail c then scanTok (some (h, c :: acc)) cs
    else if acc = [] then scanTok none cs
    else (h :: acc.reverse) :: scanTok none cs

/-- `tokenize` from the source: regex findall, then lower-case each token. -/
def tokenize (text : String) : List String :=
  (scanTok none text.data).map (fun l => pyLower (String.mk l))

/-! ## Data model -/

/-- A JSON value at a position where the source later applies Python `float(...)`:
either a value `float` accepts (folded into `num`) or one it rejects (`bad`,
e.g. a non-numeric string or `null`). -/
inductive FloatLike where
  | num (q : ℚ)
  | bad (s : String)
deriving DecidableEq

/-- Python `float(x)`: returns the number or raises (`Except.error`). -/
def pyFloat : FloatLike → Except Unit ℚ
  | .num q => .ok q
  | .bad _ => .error ()

/-- One entry of `site_data["categories"]`; a missing key is `none`
(`cat.get(..., "")` then defaults it to `""`). -/
structure CategoryRow where
  top_category : Option String := none
  sub_category : Option String := none
  sub_sub_category : Option String := none
deriving DecidableEq

/-- Weekly open-hours map: association list from weekday key (`"mon"`, ...) to a
list of `(start, end)` interval pairs of `"HH:MM"` strings. -/
def Hours : Type := List (String × List (String × String))

instance : DecidableEq Hours := by
  unfold Hours
  exact inferInstance

/-- One entry of `site_data["members"]`.  `rating`, `priority_score`, `latitude`
and `longitude` are kept raw (`FloatLike`) because the source applies
`float(...)` to the first two during candidate building and to the coordinates
inside a `try` block during ranking.  The unused `last_updated` field is omitted.
`featured` is modelled post-truthiness (`bool(mem.get("featured", False))`). -/
structure MemberRow where
  name : Option String := none
  tags : Option String := none
  location : Option String := none
  reviews : Option String := none
  rating : Option FloatLike := none
  profile_url : Option String := none
  thumbnail_url : Option String := none
  id : Option String := none
  latitude : Option FloatLike := none
  longitude : Option FloatLike := none
  featured : Bool := false
  plan_level : Option String := none
  priority_score : Option FloatLike := none
  promo_badge : Option String := none
  hours : Option Hours := none
deriving DecidableEq

/-- `site_data["settings"]`.  `radius_km` is modelled as an optional number: the
cache key stores it raw and the ranking path applies `float(...)` to it inside a
`try` whose failure resets it to `None`, which for an absent-or-numeric value is
exactly this `Option ℚ`. -/
structure Settings where
  radius_km : Option ℚ := none
deriving DecidableEq

/-- The caller-owned catalog snapshot `site_data`. -/
structure SiteData where
  categories : List CategoryRow := []
  members : List MemberRow := []
  settings : Settings := {}
deriving DecidableEq

/-- The `data_type` column of the `manual_data` table. -/
inductive MKind where
  | category
  | member
  | profession
  | location
  | synonym
  | blacklist
  | whitelist
deriving DecidableEq

/-- One active row of the `manual_data` store (`get_manual_data` output), with the
content fields the service reads.  `rating` of a manual member is stored untouched
by the builder; we model it as a number (`content.get("rating", 0)`). -/
structure MRecord where
  kind : MKind
  name : Option String := none
  location : Option String := none
  rating : ℚ := 0
  base : Option String := none
  terms : List String := []
  term : Option String := none
deriving DecidableEq

/-- A candidate dict as produced by `build_candidates`.  Field defaults encode
`cand.get(key, default)` for keys a given source never sets (e.g. category
candidates carry no rating: `cand.get("rating", 0)` yields `0`).  `ctype` is the
`"type"` string. -/
structure Candidate where
  text : String
  ctype : String
  rating : ℚ := 0
  location : String := ""
  profile_url : Option String := none
  thumbnail_url : Option String := none
  id : Option String := none
  latitude : Option FloatLike := none
  longitude : Option FloatLike := none
  featured : Bool := false
  plan_level : Option String := none
  priority_score : ℚ := 0
  promo_badge : Option String := none
  hours : Option Hours := none
deriving DecidableEq

/-! ## Manual-data views (`get_synonyms_map`, `get_blacklist`, `get_whitelist`) -/

/-- Python dict assignment `m[k] = v`: overwrite in place if the key exists,
else append (dict iteration order is first-insertion order). -/
def dictSet (m : List (String × List String)) (k : String) (v : List String) :
    List (String × List String) :=
  if m.any (fun p => p.1 = k) then
    m.map (fun p => if p.1 = k then (k, v) else p)
  else m ++ [(k, v)]

/-- `get_synonyms_map`: rows of kind synonym, lower-cased, keyed by truthy base. -/
def get_synonyms_map (manual : List MRecord) : List (String × List String) :=
  (manual.filter (fun r => r.kind = MKind.synonym)).foldl
    (fun m item =>
      let base := pyLower (item.base.getD "")
      let terms := item.terms.map pyLower
      if base ≠ "" then dictSet m base terms else m)
    []

/-- `get_blacklist`: lower-cased truthy terms of rows of kind blacklist. -/
def get_blacklist (manual : List MRecord) : List String :=
  (manual.filter (fun r => r.kind = MKind.blacklist ∧ truthyS r.term)).map
    (fun r => pyLower (r.term.getD ""))

/-- `get_whitelist`: lower-cased truthy terms of rows of kind whitelist.  The
ranking loop fetches this list but its check is `pass` (a no-op). -/
def get_whitelist (manual : List MRecord) : List String :=
  (manual.filter (fun r => r.kind = MKind.whitelist ∧ truthyS r.term)).map
    (fun r => pyLower (r.term.getD ""))

/-! ## Candidate builder (`build_candidates`) -/

/-- Candidates emitted for one category row: top label, `"Top - Sub"` composite,
`"Top - Sub - SubSub"` composite, each gated on the truthiness of its levels. -/
def catCands (cat : CategoryRow) : List Candidate :=
  let top := pyStrip (cat.top_category.getD "")
  let sub := pyStrip (cat.sub_category.getD "")
  let subsub := pyStrip (cat.sub_sub_category.getD "")
  (if top ≠ "" then [{ text := top, ctype := "category" }] else []) ++
  (if top ≠ "" ∧ sub ≠ "" then
    [{ text := top ++ " - " ++ sub, ctype := "subcategory" }] else []) ++
  (if top ≠ "" ∧ sub ≠ "" ∧ subsub ≠ "" then
    [{ text := top ++ " - " ++ sub ++ " - " ++ subsub, ctype := "subsubcategory" }] else [])

/-- Candidates emitted for one member row: the member name (if truthy), one tag
candidate per non-empty trimmed comma-split tag, and a review candidate (if the
review text is truthy), all sharing the member metadata.  `float(...)` on
`rating` and `priority_score` happens before any append, so a malformed value
makes the whole member loop raise — modelled by `Except.error`. -/
def memberCands (mem : MemberRow) : Except Unit (List Candidate) := do
  let name := pyStrip (mem.name.getD "")
  let tags := pySplitComma (mem.tags.getD "")
  let location := pyStrip (mem.location.getD "")
  let reviews := mem.reviews.getD ""
  let rating ← pyFloat (mem.rating.getD (.num 0))
  let priority ← pyFloat (mem.priority_score.getD (.num 0))
  let base : Candidate :=
    { text := name, ctype := "member", rating := rating, location := location,
      profile_url := mem.profile_url, thumbnail_url := mem.thumbnail_url,
      id := mem.id, latitude := mem.latitude, longitude := mem.longitude,
      featured := mem.featured, plan_level := mem.plan_level,
      priority_score := priority, promo_badge := mem.promo_badge,
      hours := mem.hours }
  let nameC := if name ≠ "" then [base] else []
  let tagCs := ((tags.map pyStrip).filter (fun t => t ≠ "")).map
    (fun t => { base with text := t, ctype := "tag" })
  let revC := if reviews ≠ "" then [{ base with text := reviews, ctype := "review" }] else []
  pure (nameC ++ tagCs ++ revC)

/-- Candidates emitted for the manual-data rows (kinds synonym, blacklist and
whitelist hit no branch of the `if/elif` chain and emit nothing). -/
def manualCands (manual : List MRecord) : List Candidate :=
  manual.flatMap (fun item =>
    match item.kind with
    | .category => [{ text := item.name.getD "", ctype := "manual_category" }]
    | .member =>
      if item.name.getD "" ≠ "" then
        [{ text := item.name.getD "", ctype := "manual_member",
           rating := item.rating, location := item.location.getD "" }]
      else []
    | .profession => [{ text := item.name.getD "", ctype := "manual_profession" }]
    | .location => [{ text := item.name.getD "", ctype := "manual_location" }]
    | _ => [])

/-- Run `memberCands` over the member list, concatenating; the first raising
member aborts the rest, exactly as the Python loop does. -/
def mapMemberCands : List MemberRow → Except Unit (List Candidate)
  | [] => .ok []
  | m :: ms => do
    let cs ← memberCands m
    let rest ← mapMemberCands ms
    pure (cs ++ rest)

/-- The full emission list, in source order: categories, then members
(tags/reviews inline per member), then manual data. -/
def emitCandidates (site : SiteData) (manual : List MRecord) :
    Except Unit (List Candidate) := do
  let mems ← mapMemberCands site.members
  pure (site.categories.flatMap catCands ++ mems ++ manualCands manual)

/-- The final dedup loop of `build_candidates`: keep a candidate only if its
lower-cased text was not seen before (`seen` plays the Python set). -/
def dedupLoop (seen : List String) : List Candidate → List Candidate
  | [] => []
  | c :: cs =>
    if pyLower c.text ∈ seen then dedupLoop seen cs
    else c :: dedupLoop (pyLower c.text :: seen) cs

/-- `build_candidates`: emit from all sources, then deduplicate case-insensitively
keeping first occurrences. -/
def build_candidates (site : SiteData) (manual : List MRecord) :
    Except Unit (List Candidate) :=
  (emitCandidates site manual).map (dedupLoop [])

/-! ## Query expansion and hybrid scoring -/

/-- External collaborators consumed by the pipeline: the sentence-embedding
similarity (`sem expandedQuery texts` = the cosine scores), the BM25 scorer
(`lex corpus queryTokens`), the spaCy location extractor (`ner rawQuery`), and
`calculate_distance` (`dist lat1 lon1 lat2 lon2`, the haversine formula, made a
parameter because real trigonometry is noncomputable). -/
structure Collab where
  sem : String → List String → List ℚ
  lex : List (List String) → List String → List ℚ
  ner : String → List String
  dist : ℚ → ℚ → ℚ → ℚ → ℚ

def WEIGHT_SEMANTIC : ℚ := 7/10

def WEIGHT_BM25 : ℚ := 3/10

/-- The query-expansion part of `hybrid_rank`: start from the raw query and, for
every synonym base occurring in the lower-cased query, append all its terms, then
space-join. -/
def expandedQuery (query : String) (syn : List (String × List String)) : String :=
  joinSp (query :: (syn.filter (fun p => pyIn p.1 (pyLower query))).flatMap (fun p => p.2))

/-- `hybrid_rank`: expanded query, semantic scores, BM25 scores, combined with the
configured weights.  (`numpy` addition of the two equal-length score vectors is
`zipWith`.) -/
def hybrid_rank (co : Collab) (manual : List MRecord) (query : String)
    (candidates : List Candidate) : List (Candidate × ℚ) :=
  let exq := expandedQuery query (get_synonyms_map manual)
  let semS := co.sem exq (candidates.map (fun c => c.text))
  let bmS := co.lex (candidates.map (fun c => tokenize c.text)) (tokenize exq)
  candidates.zip (List.zipWith (fun s b => WEIGHT_SEMANTIC * s + WEIGHT_BM25 * b) semS bmS)

/-! ## Intent detection and suggestion rewriting -/

/-- `detect_intent`: ordered keyword scan over the lower-cased query. -/
def detect_intent (query : String) : String :=
  let q := pyLower query
  if ["book", "schedule", "reserve"].any (fun w => pyIn w q) then "book"
  else if ["hire", "find", "near me", "nearby"].any (fun w => pyIn w q) then "hire"
  else if ["review", "reviews", "rating"].any (fun w => pyIn w q) then "review"
  else if ["compare", "vs", "best"].any (fun w => pyIn w q) then "compare"
  else "generic"

/-- The generic `TEMPLATES`, each as a renderer of the `base` and `city`
placeholders (the `.format` call applied to the template string). -/
def TEMPLATES : List (String → String → String) :=
  [fun base _ => "Top-rated " ++ base ++ " near you",
   fun base city => "Affordable " ++ base ++ " in " ++ city,
   fun base _ => "Trusted " ++ base ++ " nearby",
   fun base city => "Best " ++ base ++ " in " ++ city,
   fun base _ => "Experienced " ++ base ++ " near me"]

/-- `INTENT_TEMPLATES` with the `.get(intent, TEMPLATES)` default folded in. -/
def INTENT_TEMPLATES (intent : String) : List (String → String → String) :=
  if intent = "book" then
    [fun base city => "Book " ++ base ++ " in " ++ city,
     fun base _ => "Schedule with " ++ base ++ " near you",
     fun base _ => "Reserve " ++ base ++ " today"]
  else if intent = "hire" then
    [fun base _ => "Top-rated " ++ base ++ " near you",
     fun base city => "Best " ++ base ++ " in " ++ city,
     fun base _ => "Trusted " ++ base ++ " nearby"]
  else if intent = "review" then
    [fun base city => "Highest-rated " ++ base ++ " in " ++ city,
     fun base _ => base ++ " with great reviews",
     fun base _ => "Most trusted " ++ base ++ " near you"]
  else if intent = "compare" then
    [fun base city => "Compare " ++ base ++ " in " ++ city,
     fun base _ => "Top " ++ base ++ " options near you",
     fun base _ => "Best " ++ base ++ " nearby"]
  else TEMPLATES

/-- `rewrite_with_intent`: render every template of the intent, substituting the
city or the literal `"[City]"` placeholder (`city or "[City]"`). -/
def rewrite_with_intent (base : String) (city : Option String) (intent : String) :
    List String :=
  let c := if truthyS city then city.getD "" else "[City]"
  (INTENT_TEMPLATES intent).map (fun t => t base c)

/-! ## Signal booster -/

def BOOST_HISTORY : ℚ := 1/10

def BOOST_HIGH_RATING : ℚ := 1/10

def BOOST_LOCATION_MATCH : ℚ := 1/10

def BOOST_LEARNED_PATTERN : ℚ := 3/20

/-- The history-boost loop (lines 593-596 of the source): for EACH term of the
caller history plus the per-user server-side history cache that is a
case-insensitive substring of the candidate text, add `BOOST_HISTORY`.  Note the
accumulation is per matching term, not once per candidate. -/
def historyBoost (history uhcU : List String) (text : String) : ℚ :=
  (history ++ uhcU).foldl
    (fun b h => if pyIn (pyLower h) (pyLower text) then b + BOOST_HISTORY else b) 0

/-- Rating boost: `cand.get("rating", 0) >= 4.5`. -/
def ratingBoost (cand : Candidate) : ℚ :=
  if cand.rating ≥ 9/2 then BOOST_HIGH_RATING else 0

/-- Textual location boost: detected city is a substring of the candidate's
location field (both truthy). -/
def cityBoost (city : Option String) (cand : Candidate) : ℚ :=
  if truthyS city ∧ cand.location ≠ "" ∧ pyIn (pyLower (city.getD "")) (pyLower cand.location)
  then BOOST_LOCATION_MATCH else 0

/-- `get_location_boost`: keyword-based proximity heuristic used when the caller
has coordinates but the candidate only a location string; `+0.05` per proximity
keyword occurring in the location text, capped at `0.2`. -/
def get_location_boost (user_lat user_lon : Option ℚ) (candidate_location : String) : ℚ :=
  if truthyQ user_lat ∧ truthyQ user_lon ∧ candidate_location ≠ "" then
    min ((["near", "nearby", "close", "local", "around"].foldl
      (fun b k => if pyIn k (pyLower candidate_location) then b + 1/20 else b) 0)) (1/5)
  else 0

/-- The distance-decay table of the coordinate geo boost. -/
def geoDecay (d : ℚ) : ℚ :=
  if d ≤ 5 then 3/20 else if d ≤ 20 then 2/25 else 0

/-- Result of the geo step for one candidate: the boost contribution, the
computed distance (for the card), and whether the candidate survives the radius
filter. -/
structure GeoRes where
  boost : ℚ
  distKm : Option ℚ
  keep : Bool
deriving DecidableEq

/-- Lines 606-624 of the source.  The coordinate branch runs only when the
caller coordinates are truthy and the candidate's raw coordinates are present
(`is not None`); a malformed coordinate makes `float(...)` raise inside the
`try`, whose handler is `pass` — no boost, no distance, candidate kept.  With
numeric coordinates the decay boost is added and, when a radius is configured
and the distance exceeds it, the candidate is dropped (`continue`).  Otherwise
the keyword heuristic applies when the candidate has a location string. -/
def geoStep (dist : ℚ → ℚ → ℚ → ℚ → ℚ) (lat lon : Option ℚ) (radius : Option ℚ)
    (cand : Candidate) : GeoRes :=
  if truthyQ lat ∧ truthyQ lon ∧ cand.latitude.isSome ∧ cand.longitude.isSome then
    match pyFloat (cand.latitude.getD (.num 0)), pyFloat (cand.longitude.getD (.num 0)) with
    | .ok cl, .ok co =>
      let d := dist (lat.getD 0) (lon.getD 0) cl co
      { boost := geoDecay d, distKm := some d,
        keep := match radius with
                | some r => decide (d ≤ r)
                | none => true }
    | _, _ => { boost := 0, distKm := none, keep := true }
  else if truthyQ lat ∧ truthyQ lon ∧ cand.location ≠ "" then
    { boost := get_location_boost lat lon cand.location, distKm := none, keep := true }
  else
    { boost := 0, distKm := none, keep := true }

/-- Learned positive preference boost: `0.15 * (weight / 10)` when the lowered
text is a key of the per-user preference map. -/
def prefBoost (prefs : String → Option ℚ) (text : String) : ℚ :=
  match prefs (pyLower text) with
  | some v => BOOST_LEARNED_PATTERN * (v / 10)
  | none => 0

/-- Learned negative preference penalty magnitude: `0.15 * (weight / 5)` (the
loop subtracts it). -/
def negBoost (negs : String → Option ℚ) (text : String) : ℚ :=
  match negs (pyLower text) with
  | some v => BOOST_LEARNED_PATTERN * (v / 5)
  | none => 0

/-- Global success-pattern boost: key membership in
`LEARNING_DATA["successful_suggestions"]`. -/
def patternBoost (succ : List String) (text : String) : ℚ :=
  if pyLower text ∈ succ then BOOST_LEARNED_PATTERN * (1/2) else 0

/-- Business-rule boosts: featured flag, paid plan level, priority score. -/
def bizBoost (cand : Candidate) : ℚ :=
  (if cand.featured then 1/10 else 0) +
  (if cand.plan_level = some "premium" ∨ cand.plan_level = some "gold" ∨
      cand.plan_level = some "platinum" then 2/25 else 0) +
  cand.priority_score * (1/20)

/-- `_is_open_now` relative to an explicit wall-clock weekday key and `"HH:MM"`
time (the source reads `datetime.now()`; we pass the clock in). -/
def is_open_now (hours : Option Hours) (weekday hm : String) : Bool :=
  match hours with
  | none => false
  | some h =>
    (((h.find? (fun p => p.1 = weekday)).map (fun p => p.2)).getD []).any
      (fun iv => strLe iv.1 hm && strLe hm iv.2)

/-- Availability/promotion boosts. -/
def availBoost (cand : Candidate) (weekday hm : String) : ℚ :=
  (if is_open_now cand.hours weekday hm then 1/20 else 0) +
  (if truthyS cand.promo_badge then 3/100 else 0)

/-- Everything the boost loop reads besides the candidate and its base score. -/
structure BoostCtx where
  blacklist : List String
  history : List String
  uhcU : List String
  city : Option String
  dist : ℚ → ℚ → ℚ → ℚ → ℚ
  lat : Option ℚ
  lon : Option ℚ
  radius : Option ℚ
  prefs : String → Option ℚ
  negs : String → Option ℚ
  succ : List String
  weekday : String
  hm : String

/-- The body of the boost loop for one `(candidate, base score)` pair: `none`
models `continue` (blacklist hit or radius exclusion), otherwise the final score
and the distance are returned.  The source accumulates `boost` sequentially and
the radius `continue` sits between the geo boost and the later boosts; since a
dropped candidate contributes nothing, summing the components is observationally
identical. -/
def processCand (ctx : BoostCtx) (cand : Candidate) (sc : ℚ) :
    Option (Candidate × ℚ × Option ℚ) :=
  if ctx.blacklist ≠ [] ∧ ctx.blacklist.any (fun b => pyIn b (pyLower cand.text)) then
    none
  else if (geoStep ctx.dist ctx.lat ctx.lon ctx.radius cand).keep then
    some (cand,
      sc + (historyBoost ctx.history ctx.uhcU cand.text + ratingBoost cand +
        cityBoost ctx.city cand + (geoStep ctx.dist ctx.lat ctx.lon ctx.radius cand).boost +
        prefBoost ctx.prefs cand.text - negBoost ctx.negs cand.text +
        patternBoost ctx.succ cand.text + bizBoost cand +
        availBoost cand ctx.weekday ctx.hm),
      (geoStep ctx.dist ctx.lat ctx.lon ctx.radius cand).distKm)
  else none

/-! ## Sorting, top selection, cards, final dedup -/

/-- Insert `x` after every already-placed element with a score `>=` its own
(stable descending insertion). -/
def insDesc (x : Candidate × ℚ × Option ℚ) :
    List (Candidate × ℚ × Option ℚ) → List (Candidate × ℚ × Option ℚ)
  | [] => [x]
  | y :: ys => if x.2.1 ≤ y.2.1 then y :: insDesc x ys else x :: y :: ys

/-- `scores.sort(key=lambda x: -x[1])`: Python's sort is stable, so its output —
descending by score, ties in original order — is computed by any stable
descending sort; we use insertion sort. -/
def sortScores (l : List (Candidate × ℚ × Option ℚ)) : List (Candidate × ℚ × Option ℚ) :=
  l.foldl (fun acc x => insDesc x acc) []

/-- The post-filter score list: zip candidates with the hybrid base scores and
run the boost loop. -/
def scoreCands (co : Collab) (manual : List MRecord) (prefs negs : String → Option ℚ)
    (succ : List String) (weekday hm : String) (query : String) (site : SiteData)
    (history : List String) (lat lon : Option ℚ)
    (uhcU : List String) (candidates : List Candidate) :
    List (Candidate × ℚ × Option ℚ) :=
  let ctx : BoostCtx :=
    { blacklist := get_blacklist manual, history := history, uhcU := uhcU,
      city := (co.ner query).head?, dist := co.dist, lat := lat, lon := lon,
      radius := site.settings.radius_km, prefs := prefs, negs := negs,
      succ := succ, weekday := weekday, hm := hm }
  (hybrid_rank co manual query candidates).filterMap (fun p => processCand ctx p.1 p.2)

/-- A member card of the response. -/
structure Card where
  title : String
  member_id : Option String
  profile_url : Option String
  thumbnail_url : Option String
  rating : ℚ
  location : String
  distance_km : Option ℚ
  promo_badge : Option String
  featured : Bool
deriving DecidableEq

/-- Python `round(q, 2)` (the source rounds card distances; Python rounds exact
halves to even, which binary floats essentially never produce — we use round
half up). -/
def pyRound2 (q : ℚ) : ℚ := (round (q * 100) : ℤ) / 100

/-- Python `round(q, 4)` (used for debug-trace scores). -/
def pyRound4 (q : ℚ) : ℚ := (round (q * 10000) : ℤ) / 10000

/-- Card construction over the top candidates: only member/tag/review candidates
with a truthy profile URL or id produce a card. -/
def buildCards (top : List (Candidate × ℚ × Option ℚ)) : List Card :=
  top.filterMap (fun x =>
    if (x.1.ctype = "member" ∨ x.1.ctype = "tag" ∨ x.1.ctype = "review") ∧
        (truthyS x.1.profile_url ∨ truthyS x.1.id) then
      some { title := x.1.text, member_id := x.1.id, profile_url := x.1.profile_url,
             thumbnail_url := x.1.thumbnail_url, rating := x.1.rating,
             location := x.1.location, distance_km := x.2.2.map pyRound2,
             promo_badge := x.1.promo_badge, featured := x.1.featured }
    else none)

/-- All suggestion strings rendered from the top candidates, in order. -/
def buildSuggestions (top : List (Candidate × ℚ × Option ℚ)) (city : Option String)
    (intent : String) : List String :=
  top.flatMap (fun x => rewrite_with_intent x.1.text city intent)

/-- The final dedup-and-limit loop: append a suggestion if its lower-casing is
unseen, and stop as soon as five are collected. -/
def finalTake (seen acc : List String) : List String → List String
  | [] => acc
  | s :: rest =>
    if pyLower s ∈ seen then
      if acc.length ≥ 5 then acc else finalTake seen acc rest
    else
      if (acc ++ [s]).length ≥ 5 then acc ++ [s]
      else finalTake (pyLower s :: seen) (acc ++ [s]) rest

/-! ## Result cache, global state, and the ranking pipeline -/

/-- The cache key: the source serializes this record as sorted-key JSON, which
is injective on the fields, so we use the record itself.  `radius` is the raw
`settings.get("radius_km")`. -/
structure CKey where
  q : String
  uid : String
  lat : Option ℚ
  lon : Option ℚ
  intent : String
  radius : Option ℚ
deriving DecidableEq

/-- One entry of the debug trace's `top_candidates`. -/
structure DbgCand where
  text : String
  ctype : String
  score : ℚ
  distance_km : Option ℚ
deriving DecidableEq

/-- The debug trace: `cold` for the cold-start reason object
`{"reason": "cold_start"}`, `trace` for `{intent, city, top_candidates}`. -/
inductive DbgInfo where
  | cold
  | trace (intent : String) (city : Option String) (top : List DbgCand)
deriving DecidableEq

/-- A stored cache entry `{ts, suggestions, cards, debug}`. -/
structure CEntry where
  ts : ℚ
  suggestions : List String
  cards : List Card
  debug : Option DbgInfo
deriving DecidableEq

/-- The process-wide mutable globals touched by the pipeline:
`SUGGESTION_CACHE`, `USER_HISTORY_CACHE` and `POPULAR_QUERIES`. -/
structure GState where
  cache : CKey → Option CEntry
  uhc : String → List String
  popular : String → ℕ

/-- The cache fingerprint of a request. -/
def mkKey (query uid : String) (lat lon : Option ℚ) (site : SiteData) : CKey :=
  { q := query, uid := uid, lat := lat, lon := lon,
    intent := detect_intent query, radius := site.settings.radius_km }

/-- Cache lookup with lazy TTL check: a stored entry is a hit iff
`now - ts <= SUGGESTION_CACHE_TTL_SECONDS`. -/
def cacheLookup (st : GState) (key : CKey) (nowTs ttl : ℚ) : Option CEntry :=
  match st.cache key with
  | some e => if nowTs - e.ts ≤ ttl then some e else none
  | none => none

/-- The cold-start list: names of manual category rows then manual profession
rows, keeping truthy names. -/
def coldList (manual : List MRecord) : List String :=
  ((manual.filter (fun r => r.kind = MKind.category)) ++
   (manual.filter (fun r => r.kind = MKind.profession))).filterMap
    (fun r => if truthyS r.name then some (r.name.getD "") else none)

/-- The outward result of one ranking call.  In the source, when `debug` is
false the third returned component is a stray echo tuple caused by operator
precedence in `return a, b, c if debug else (...)`; the `/suggest` handler only
reads it under `if debug_flag and debug_info`, so we model the component as
`Option DbgInfo`, `none` whenever `debug` is false. -/
structure RankOut where
  suggestions : List String
  cards : List Card
  debug : Option DbgInfo
deriving DecidableEq

/-- The cache-miss path of `rank_candidates` (everything after the cache check):
candidate building (which can raise on a malformed member), the cold-start
shortcut, hybrid scoring, the boost loop, sorting, rewriting, carding, final
dedup, the user-history append, the debug trace, and the cache write. -/
def rankMiss (co : Collab) (manual : List MRecord) (prefs negs : String → Option ℚ)
    (succ : List String) (weekday hm : String) (nowTs : ℚ) (query : String)
    (site : SiteData) (uid : String) (history : List String) (lat lon : Option ℚ)
    (debug : Bool) (st : GState) (key : CKey) : Except Unit (RankOut × GState) :=
  match build_candidates site manual with
  | .error u => .error u
  | .ok candidates =>
    if candidates = [] then
      let cold0 := (coldList manual).take 5
      let cold := if cold0 = [] then ["Popular services near you"] else cold0
      .ok ({ suggestions := cold, cards := [],
             debug := if debug then some DbgInfo.cold else none }, st)
    else
      let scores := sortScores (scoreCands co manual prefs negs succ weekday hm
        query site history lat lon (st.uhc uid) candidates)
      let top := scores.take 5
      let city := (co.ner query).head?
      let intent := detect_intent query
      let final := finalTake [] [] (buildSuggestions top city intent)
      let cards := buildCards top
      let dbg := if debug then
          some (DbgInfo.trace intent city
            ((scores.take 10).map (fun x =>
              { text := x.1.text, ctype := x.1.ctype, score := pyRound4 x.2.1,
                distance_km := x.2.2 })))
        else none
      let entry : CEntry := { ts := nowTs, suggestions := final, cards := cards, debug := dbg }
      .ok ({ suggestions := final, cards := cards, debug := dbg },
        { cache := fun k => if k = key then some entry else st.cache k,
          uhc := fun u => if u = uid then
              (if query ∈ st.uhc uid then st.uhc uid else st.uhc uid ++ [query])
            else st.uhc u,
          popular := fun s => if s = pyLower query then st.popular s + 1 else st.popular s })

/-- `rank_candidates`: cache lookup, then the miss path.  On a hit the stored
suggestions, cards and (when `debug` is set) debug trace are returned verbatim
and no state changes.  For the cold-start debug object `{"reason": "cold_start"}`
we store the tag `"cold_start"` in the `DbgInfo` intent slot. -/
def rank_candidates (co : Collab) (manual : List MRecord) (prefs negs : String → Option ℚ)
    (succ : List String) (weekday hm : String) (nowTs ttl : ℚ) (query : String)
    (site : SiteData) (uid : String) (history : List String) (lat lon : Option ℚ)
    (debug : Bool) (st : GState) : Except Unit (RankOut × GState) :=
  match cacheLookup st (mkKey query uid lat lon site) nowTs ttl with
  | some e =>
    .ok ({ suggestions := e.suggestions, cards := e.cards,
           debug := if debug then e.debug else none }, st)
  | none =>
    rankMiss co manual prefs negs succ weekday hm nowTs query site uid history
      lat lon debug st (mkKey query uid lat lon site)

/-- Projection used by several claims: the returned `RankOut` when the call does
not raise. -/
def rankOut (co : Collab) (manual : List MRecord) (prefs negs : String → Option ℚ)
    (succ : List String) (weekday hm : String) (nowTs ttl : ℚ) (query : String)
    (site : SiteData) (uid : String) (history : List String) (lat lon : Option ℚ)
    (debug : Bool) (st : GState) : Option RankOut :=
  (rank_candidates co manual prefs negs succ weekday hm nowTs ttl query site uid
    history lat lon debug st).toOption.map Prod.fst

/-! ## The `/suggest` handler -/

/-- Outcome of one `/suggest` request, as the caller sees it. -/
inductive SuggestResp where
  | ok (suggestions : List String) (cards : List Card) (debug : Option DbgInfo)
  | badRequest
  | serverError
deriving DecidableEq

/-- The `/suggest` handler after authentication: validate the query, run the
pipeline, then `save_search_interaction` — whose database write sits INSIDE the
same `try` as the response construction, with no inner handler, so a persistence
failure (modelled by `persistOk = false`) falls through to the generic
`except Exception` arm and produces the 500 error response.  The A/B-variant
update just after it is wrapped in its own `try/except: pass` and is modelled as
a no-op. -/
def suggest (co : Collab) (manual : List MRecord) (prefs negs : String → Option ℚ)
    (succ : List String) (weekday hm : String) (nowTs ttl : ℚ) (rawQuery : String)
    (site : SiteData) (uid : String) (history : List String) (lat lon : Option ℚ)
    (debugFlag : Bool) (persistOk : Bool) (st : GState) : SuggestResp × GState :=
  let query := pyStrip rawQuery
  if query = "" then (.badRequest, st)
  else
    match rank_candidates co manual prefs negs succ weekday hm nowTs ttl query site
      uid history lat lon debugFlag st with
    | .error _ => (.serverError, st)
    | .ok (out, st') =>
      if persistOk then
        (.ok out.suggestions out.cards (if debugFlag then out.debug else none), st')
      else (.serverError, st')

/-! ## General lemmas about the helper loops -/

/-- Accumulating a fixed increment over a list adds the increment once per
element satisfying the predicate. -/
theorem foldl_boost_count (c : ℚ) (p : String → Bool) :
    ∀ (l : List String) (b : ℚ),
      l.foldl (fun acc h => if p h then acc + c else acc) b = b + c * (l.countP p : ℚ)
  | [], b => by simp
  | x :: xs, b => by
    cases hp : p x
    · rw [List.foldl_cons, List.countP_cons, if_neg (by simp [hp]),
        foldl_boost_count c p xs b]
      simp [hp]
    · rw [List.foldl_cons, List.countP_cons, if_pos hp,
        foldl_boost_count c p xs (b + c)]
      simp only [hp, if_true]
      push_cast
      ring

/-- The dedup loop returns a sublist of its input. -/
theorem dedupLoop_sublist : ∀ (seen : List String) (l : List Candidate),
    (dedupLoop seen l).Sublist l
  | _, [] => List.Sublist.refl []
  | seen, c :: cs => by
    unfold dedupLoop
    by_cases h : pyLower c.text ∈ seen
    · simp only [h, if_true]
      exact (dedupLoop_sublist seen cs).cons c
    · simp only [h, if_false]
      exact (dedupLoop_sublist (pyLower c.text :: seen) cs).cons₂ c

/-- No output of the dedup loop has a lower-cased text in `seen`. -/
theorem dedupLoop_not_seen : ∀ (seen : List String) (l : List Candidate),
    ∀ c ∈ dedupLoop seen l, pyLower c.text ∉ seen
  | seen, [], c, hc => by simp [dedupLoop] at hc
  | seen, d :: ds, c, hc => by
    unfold dedupLoop at hc
    by_cases h : pyLower d.text ∈ seen
    · simp only [h, if_true] at hc
      exact dedupLoop_not_seen seen ds c hc
    · simp only [h, if_false, List.mem_cons] at hc
      rcases hc with rfl | hc
      · exact h
      · have := dedupLoop_not_seen (pyLower d.text :: seen) ds c hc
        intro hmem
        exact this (List.mem_cons_of_mem _ hmem)

/-- The lower-cased texts of the dedup output are pairwise distinct. -/
theorem dedupLoop_nodup : ∀ (seen : List String) (l : List Candidate),
    ((dedupLoop seen l).map (fun c => pyLower c.text)).Nodup
  | _, [] => by simp [dedupLoop]
  | seen, d :: ds => by
    unfold dedupLoop
    by_cases h : pyLower d.text ∈ seen
    · simp only [h, if_true]
      exact dedupLoop_nodup seen ds
    · simp only [h, if_false, List.map_cons, List.nodup_cons]
      refine ⟨?_, dedupLoop_nodup (pyLower d.text :: seen) ds⟩
      intro hmem
      rcases List.mem_map.mp hmem with ⟨c, hc, hceq⟩
      exact dedupLoop_not_seen _ _ c hc (hceq ▸ List.mem_cons_self _ _)

/-- Every input element has a representative (same lower-cased text) in the
dedup output, unless its key was already seen. -/
theorem dedupLoop_covers : ∀ (seen : List String) (l : List Candidate),
    ∀ c ∈ l, pyLower c.text ∉ seen →
      ∃ c', c' ∈ dedupLoop seen l ∧ pyLower c'.text = pyLower c.text
  | seen, [], c, hc, _ => by simp at hc
  | seen, d :: ds, c, hc, hns => by
    unfold dedupLoop
    by_cases h : pyLower d.text ∈ seen
    · simp only [h, if_true]
      rcases List.mem_cons.mp hc with rfl | hc'
      · exact absurd h hns
      · exact dedupLoop_covers seen ds c hc' hns
    · simp only [h, if_false]
      rcases List.mem_cons.mp hc with rfl | hc'
      · exact ⟨c, List.mem_cons_self _ _, rfl⟩
      · by_cases hk : pyLower c.text = pyLower d.text
        · exact ⟨d, List.mem_cons_self _ _, hk.symm⟩
        · have hns' : pyLower c.text ∉ pyLower d.text :: seen := by
            intro hx
            rcases List.mem_cons.mp hx with hx | hx
            · exact hk hx
            · exact hns hx
          rcases dedupLoop_covers (pyLower d.text :: seen) ds c hc' hns' with ⟨c', h1, h2⟩
          exact ⟨c', List.mem_cons_of_mem _ h1, h2⟩

/-- The dedup loop preserves the FIRST occurrence of every unseen key: searching
its output for a key finds exactly what searching the raw emission finds. -/
theorem dedupLoop_find : ∀ (seen : List String) (l : List Candidate) (k : String),
    k ∉ seen →
      (dedupLoop seen l).find? (fun c => pyLower c.text == k) =
        l.find? (fun c => pyLower c.text == k)
  | _, [], _, _ => rfl
  | seen, d :: ds, k, hk => by
    unfold dedupLoop
    by_cases h : pyLower d.text ∈ seen
    · simp only [h, if_true]
      have hne : (pyLower d.text == k) = false := by
        simp only [beq_eq_false_iff_ne, ne_eq]
        intro hx
        exact hk (hx ▸ h)
      rw [List.find?_cons_of_neg _ (by simp [hne]), dedupLoop_find seen ds k hk]
    · simp only [h, if_false]
      by_cases hdk : pyLower d.text = k
      · rw [List.find?_cons_of_pos _ (by simp [hdk]), List.find?_cons_of_pos _ (by simp [hdk])]
      · rw [List.find?_cons_of_neg _ (by simp [hdk]), List.find?_cons_of_neg _ (by simp [hdk])]
        refine dedupLoop_find (pyLower d.text :: seen) ds k ?_
        intro hx
        rcases List.mem_cons.mp hx with hx | hx
        · exact hdk hx.symm
        · exact hk hx

/-- Membership in a stable descending insertion. -/
theorem mem_insDesc (x a : Candidate × ℚ × Option ℚ) :
    ∀ l : List (Candidate × ℚ × Option ℚ), a ∈ insDesc x l → a = x ∨ a ∈ l
  | [], h => by simpa [insDesc] using h
  | y :: ys, h => by
    unfold insDesc at h
    by_cases hle : x.2.1 ≤ y.2.1
    · simp only [hle, if_true, List.mem_cons] at h
      rcases h with rfl | h
      · exact Or.inr (List.mem_cons_self _ _)
      · rcases mem_insDesc x a ys h with h | h
        · exact Or.inl h
        · exact Or.inr (List.mem_cons_of_mem _ h)
    · simp only [hle, if_false, List.mem_cons] at h
      rcases h with rfl | h
      · exact Or.inl rfl
      · exact Or.inr (List.mem_cons.mpr h)

/-- Every element of the sorted score list occurs in the unsorted one. -/
theorem mem_sortScores_aux (a : Candidate × ℚ × Option ℚ) :
    ∀ (l acc : List (Candidate × ℚ × Option ℚ)),
      a ∈ l.foldl (fun acc x => insDesc x acc) acc → a ∈ acc ∨ a ∈ l
  | [], acc, h => Or.inl h
  | x :: xs, acc, h => by
    rcases mem_sortScores_aux a xs (insDesc x acc) h with h | h
    · rcases mem_insDesc x a acc h with rfl | h
      · exact Or.inr (List.mem_cons_self _ _)
      · exact Or.inl h
    · exact Or.inr (List.mem_cons_of_mem _ h)

/-- Every element of `sortScores l` is an element of `l`. -/
theorem mem_sortScores (a : Candidate × ℚ × Option ℚ)
    (l : List (Candidate × ℚ × Option ℚ)) (h : a ∈ sortScores l) : a ∈ l := by
  rcases mem_sortScores_aux a l [] h with h | h
  · simp at h
  · exact h

/-- The final dedup-and-limit loop keeps the list at five or fewer entries with
pairwise-distinct lower-casings, given the entry invariants of the loop. -/
theorem finalTake_ok :
    ∀ (l seen acc : List String),
      (acc.map pyLower).Nodup → (∀ a ∈ acc, pyLower a ∈ seen) → acc.length < 5 →
        (finalTake seen acc l).length ≤ 5 ∧ ((finalTake seen acc l).map pyLower).Nodup
  | [], seen, acc, hnd, _, hlen => by
    exact ⟨by simpa [finalTake] using Nat.le_of_lt hlen, by simpa [finalTake] using hnd⟩
  | s :: rest, seen, acc, hnd, hsub, hlen => by
    unfold finalTake
    by_cases hs : pyLower s ∈ seen
    · simp only [hs, if_true]
      have : ¬ acc.length ≥ 5 := by omega
      simp only [this, if_false]
      exact finalTake_ok rest seen acc hnd hsub hlen
    · simp only [hs, if_false]
      have hnd' : ((acc ++ [s]).map pyLower).Nodup := by
        simp only [List.map_append, List.map_cons, List.map_nil]
        rw [List.nodup_append]
        refine ⟨hnd, List.nodup_singleton _, ?_⟩
        intro x hx hx'
        simp only [List.mem_singleton] at hx'
        rcases List.mem_map.mp hx with ⟨a, ha, rfl⟩
        exact hs (hx' ▸ hsub a ha)
      by_cases hfull : (acc ++ [s]).length ≥ 5
      · simp only [hfull, if_true]
        refine ⟨?_, hnd'⟩
        simp only [List.length_append, List.length_cons, List.length_nil]
        omega
      · simp only [hfull, if_false]
        refine finalTake_ok rest (pyLower s :: seen) (acc ++ [s]) hnd' ?_ ?_
        · intro a ha
          rcases List.mem_append.mp ha with ha | ha
          · exact List.mem_cons_of_mem _ (hsub a ha)
          · simp only [List.mem_singleton] at ha
            exact ha ▸ List.mem_cons_self _ _
        · simp only [List.length_append, List.length_cons, List.length_nil] at hfull ⊢
          omega

/-- If the manual rows emit no candidates, there are no category or profession
rows at all, so the cold-start name list is empty. -/
theorem coldList_nil_of_manualCands_nil :
    ∀ manual : List MRecord, manualCands manual = [] → coldList manual = []
  | [], _ => rfl
  | r :: rs, h => by
    unfold manualCands at h
    simp only [List.flatMap_cons] at h
    have h2 := List.append_eq_nil.mp h
    have hrs : coldList rs = [] :=
      coldList_nil_of_manualCands_nil rs (by unfold manualCands; exact h2.2)
    unfold coldList at hrs ⊢
    cases hk : r.kind <;>
      simp_all [hk, coldList, List.filter_cons, List.filterMap_append]

/-- An empty candidate build forces an empty manual emission. -/
theorem manualCands_nil_of_build_nil (site : SiteData) (manual : List MRecord)
    (h : build_candidates site manual = .ok []) : manualCands manual = [] := by
  unfold build_candidates at h
  cases he : emitCandidates site manual with
  | error u => rw [he] at h; exact absurd h (by simp [Except.map])
  | ok el =>
    rw [he] at h
    simp only [Except.map, Except.ok.injEq] at h
    have hel : el = [] := by
      cases el with
      | nil => rfl
      | cons c cs =>
        exfalso
        unfold dedupLoop at h
        simp only [List.not_mem_nil, if_neg] at h
        exact List.cons_ne_nil _ _ h
    subst hel
    unfold emitCandidates at he
    cases hm : mapMemberCands site.members with
    | error u => simp [hm, bind, Except.bind] at he
    | ok mems =>
      simp only [hm, bind, Except.bind, pure, Except.pure, Except.ok.injEq] at he
      exact (List.append_eq_nil.mp he).2

/-! ## Shared concrete fixtures for witnesses and counterexamples -/

/-- Empty global state: empty cache, empty per-user histories, no counters. -/
def stEmpty : GState :=
  { cache := fun _ => none, uhc := fun _ => [], popular := fun _ => 0 }

/-- A concrete collaborator bundle: every semantic and lexical score is `1`, the
NER finds no locations, and the distance function is constantly `0`. -/
def collabOne : Collab :=
  { sem := fun _ ts => ts.map (fun _ => 1),
    lex := fun cs _ => cs.map (fun _ => 1),
    ner := fun _ => [],
    dist := fun _ _ _ _ => 0 }

/-- Empty per-user preference map. -/
def noPrefs : String → Option ℚ := fun _ => none

/-! ## Claim C2 — history boost -/

/-- C2 (claim as stated) is FALSE: the spec says the history boost "applies once
per candidate regardless of how many history terms match", but the source loop
adds `BOOST_HISTORY` once per matching term.  Concretely, with history terms
`"den"` and `"dent"`, both case-insensitive substrings of candidate text
`"Dentist"`, the history contribution is `0.2`, not `0.1`. -/
theorem C2_cex :
    pyIn (pyLower "den") (pyLower "Dentist") = true ∧
    pyIn (pyLower "dent") (pyLower "Dentist") = true ∧
    historyBoost ["den", "dent"] [] "Dentist" = 1/5 ∧ ((1 : ℚ)/5 ≠ BOOST_HISTORY) := by
  refine ⟨by decide, by decide, by decide, by decide⟩

/-- C2 (amended): the history contribution of a candidate is `0.10` PER term of
the caller-supplied history plus the server-side per-user history cache that is
a case-insensitive substring of the candidate text (so it is `0.10` exactly when
exactly one term matches). -/
theorem C2_history_boost_per_match (history uhcU : List String) (text : String) :
    historyBoost history uhcU text =
      BOOST_HISTORY *
        (((history ++ uhcU).countP (fun h => pyIn (pyLower h) (pyLower text)) : ℕ) : ℚ) := by
  unfold historyBoost
  rw [foldl_boost_count]
  simp

/-! ## Claim C9 — "dentist" vs "Downtown Dental" -/

/-- C9 (claim as stated) is FALSE: the spec example asserts the history boost of
`0.10` applies to candidate `"Downtown Dental"` given history term `"dentist"`;
since the boost is a literal substring test and `"dentist"` is not a substring
of `"downtown dental"`, the contribution is `0`. -/
theorem C9_cex :
    historyBoost ["dentist"] [] "Downtown Dental" = 0 ∧ ((0 : ℚ) ≠ BOOST_HISTORY) := by
  refine ⟨by decide, by decide⟩

/-- C9 (amended): the history boost does NOT apply to `"Downtown Dental"` for
history term `"dentist"`, precisely because the boost is a literal
case-insensitive substring match and `"dentist"` is not a substring of the
candidate text. -/
theorem C9_literal_substring_no_boost :
    pyIn (pyLower "dentist") (pyLower "Downtown Dental") = false ∧
    historyBoost ["dentist"] [] "Downtown Dental" = 0 := by
  refine ⟨by decide, by decide⟩

/-! ## Claim C7 — candidate dedup keeps unique texts, first emission wins -/

/-- The builder output always has pairwise-distinct lower-cased texts. -/
theorem build_candidates_nodup (site : SiteData) (manual : List MRecord)
    (cl : List Candidate) (h : build_candidates site manual = .ok cl) :
    (cl.map (fun c => pyLower c.text)).Nodup := by
  unfold build_candidates at h
  cases he : emitCandidates site manual with
  | error u =>
    rw [he] at h
    exact absurd h (by simp [Except.map])
  | ok el =>
    rw [he] at h
    simp only [Except.map, Except.ok.injEq] at h
    subst h
    exact dedupLoop_nodup [] el

/-- C7: for every catalog snapshot and manual-record set on which the build
succeeds, the Candidate Builder output has pairwise-distinct lower-cased texts;
moreover it is a sublist of the emission list (categories, then members'
name/tag/review candidates, then manual data), every emitted text is represented,
and for every key the first candidate of the output with that lower-cased text
is exactly the first-emitted candidate with it. -/
theorem C7_dedup_unique_first_wins (site : SiteData) (manual : List MRecord)
    (cl : List Candidate) (h : build_candidates site manual = .ok cl) :
    ((cl.map (fun c => pyLower c.text)).Nodup) ∧
    ∃ el, emitCandidates site manual = .ok el ∧
      cl.Sublist el ∧
      (∀ c ∈ el, ∃ c', c' ∈ cl ∧ pyLower c'.text = pyLower c.text) ∧
      (∀ k : String,
        cl.find? (fun c => pyLower c.text == k) = el.find? (fun c => pyLower c.text == k)) := by
  unfold build_candidates at h
  cases he : emitCandidates site manual with
  | error u =>
    rw [he] at h
    exact absurd h (by simp [Except.map])
  | ok el =>
    rw [he] at h
    simp only [Except.map, Except.ok.injEq] at h
    subst h
    refine ⟨dedupLoop_nodup [] el, el, rfl, dedupLoop_sublist [] el, ?_, ?_⟩

    · intro c hc
      exact dedupLoop_covers [] el c hc (by simp)
    · intro k
      exact dedupLoop_find [] el k (by simp)

/-- A concrete catalog for the C7 witness: the category label `"Plumber"` and a
manual category `"plumber"` collide case-insensitively; the first-emitted
(catalog) candidate is kept. -/
def siteDup : SiteData := { categories := [{ top_category := some "Plumber" }] }

def manualDup : List MRecord := [{ kind := MKind.category, name := some "plumber" }]

/-- Witness for C7 at a concrete snapshot with a case-insensitive collision. -/
theorem C7_witness :
    ((([{ text := "Plumber", ctype := "category" }] : List Candidate).map
      (fun c => pyLower c.text)).Nodup) ∧
    ∃ el, emitCandidates siteDup manualDup = .ok el ∧
      ([{ text := "Plumber", ctype := "category" }] : List Candidate).Sublist el ∧
      (∀ c ∈ el, ∃ c', c' ∈ ([{ text := "Plumber", ctype := "category" }] : List Candidate) ∧
        pyLower c'.text = pyLower c.text) ∧
      (∀ k : String,
        ([{ text := "Plumber", ctype := "category" }] : List Candidate).find?
            (fun c => pyLower c.text == k) =
          el.find? (fun c => pyLower c.text == k)) :=
  C7_dedup_unique_first_wins siteDup manualDup _ (by rfl)

/-! ## Claim C8 — malformed or missing catalog fields -/

/-- Is this raw value absent or a number (so that `float(...)` cannot raise)? -/
def numOk : Option FloatLike → Bool
  | none => true
  | some (.num _) => true
  | some (.bad _) => false

/-- `memberCands` never raises on a member whose `rating` and `priority_score`
are absent or numeric; with a truthy name, the member candidate (text = the
stripped name) is among its output, and a missing rating defaults to `0`. -/
theorem memberCands_ok (mem : MemberRow) (h1 : numOk mem.rating = true)
    (h2 : numOk mem.priority_score = true) :
    ∃ cs, memberCands mem = .ok cs ∧
      (pyStrip (mem.name.getD "") ≠ "" →
        ∃ c, c ∈ cs ∧ c.text = pyStrip (mem.name.getD "") ∧
          (mem.rating = none → c.rating = 0)) := by
  have hr : ∃ q, pyFloat (mem.rating.getD (.num 0)) = .ok q ∧ (mem.rating = none → q = 0) := by
    cases hx : mem.rating with
    | none => exact ⟨0, rfl, fun _ => rfl⟩
    | some fl =>
      cases fl with
      | num q => exact ⟨q, rfl, by simp⟩
      | bad s => rw [hx] at h1; exact absurd h1 (by simp [numOk])
  have hp : ∃ q, pyFloat (mem.priority_score.getD (.num 0)) = .ok q := by
    cases hx : mem.priority_score with
    | none => exact ⟨0, rfl⟩
    | some fl =>
      cases fl with
      | num q => exact ⟨q, rfl⟩
      | bad s => rw [hx] at h2; exact absurd h2 (by simp [numOk])
  rcases hr with ⟨rq, hrq, hrdef⟩
  rcases hp with ⟨pq, hpq⟩
  unfold memberCands
  rw [hrq, hpq]
  simp only [bind, Except.bind, pure, Except.pure]
  refine ⟨_, rfl, ?_⟩
  intro hname
  rw [if_pos hname]
  exact ⟨_, List.mem_append_left _ (List.mem_append_left _ (List.mem_cons_self _ _)),
    rfl, fun hx => hrdef hx⟩

/-- `mapMemberCands` never raises when every member has absent-or-numeric
`rating` and `priority_score`, and every truthy member name appears in its
output. -/
theorem mapMemberCands_ok :
    ∀ members : List MemberRow,
      (∀ mem ∈ members, numOk mem.rating = true ∧ numOk mem.priority_score = true) →
      ∃ cs, mapMemberCands members = .ok cs ∧
        ∀ mem ∈ members, pyStrip (mem.name.getD "") ≠ "" →
          ∃ c, c ∈ cs ∧ c.text = pyStrip (mem.name.getD "") ∧
            (mem.rating = none → c.rating = 0)
  | [], _ => ⟨[], rfl, by simp⟩
  | m :: ms, h => by
    rcases memberCands_ok m (h m (List.mem_cons_self _ _)).1 (h m (List.mem_cons_self _ _)).2
      with ⟨cs, hcs, hname⟩
    rcases mapMemberCands_ok ms (fun mem hm => h mem (List.mem_cons_of_mem _ hm))
      with ⟨rest, hrest, hall⟩
    refine ⟨cs ++ rest, ?_, ?_⟩
    · unfold mapMemberCands
      rw [hcs, hrest]
      rfl
    · intro mem hm hn
      rcases List.mem_cons.mp hm with rfl | hm'
      · rcases hname hn with ⟨c, hc, hct, hcr⟩
        exact ⟨c, List.mem_append_left _ hc, hct, hcr⟩
      · rcases hall mem hm' hn with ⟨c, hc, hct, hcr⟩
        exact ⟨c, List.mem_append_right _ hc, hct, hcr⟩

/-- C8 (claim as stated) is FALSE: a single member record whose `rating` field
holds a value `float` rejects makes `build_candidates` raise, aborting the whole
build — the following well-formed member `"Good"` is lost too. -/
def siteBadRating : SiteData :=
  { members := [{ name := some "Bad", rating := some (.bad "five stars") },
                { name := some "Good" }] }

theorem C8_cex : build_candidates siteBadRating [] = .error () := by rfl

/-- C8 (amended): a MISSING field never aborts the build — missing names/tags/
locations default to empty and a missing rating or priority score defaults to
zero, and all remaining records are emitted (every member with a truthy name is
represented in the deduplicated output).  A malformed (non-numeric) `rating` or
`priority_score`, however, aborts the whole build, as the counterexample shows. -/
theorem C8_missing_fields_default (site : SiteData) (manual : List MRecord)
    (h : ∀ mem ∈ site.members, numOk mem.rating = true ∧ numOk mem.priority_score = true) :
    ∃ l, build_candidates site manual = .ok l ∧
      ∀ mem ∈ site.members, pyStrip (mem.name.getD "") ≠ "" →
        ∃ c, c ∈ l ∧ pyLower c.text = pyLower (pyStrip (mem.name.getD "")) := by
  rcases mapMemberCands_ok site.members h with ⟨cs, hcs, hall⟩
  have he : emitCandidates site manual =
      .ok (site.categories.flatMap catCands ++ cs ++ manualCands manual) := by
    unfold emitCandidates
    rw [hcs]
    rfl
  refine ⟨_, by unfold build_candidates; rw [he]; rfl, ?_⟩
  intro mem hm hn
  rcases hall mem hm hn with ⟨c, hc, hct, _⟩
  have hcel : c ∈ site.categories.flatMap catCands ++ cs ++ manualCands manual := by
    exact List.mem_append_left _ (List.mem_append_right _ hc)
  rcases dedupLoop_covers [] _ c hcel (by simp) with ⟨c', h1, h2⟩
  exact ⟨c', h1, by rw [h2, hct]⟩

/-- Witness for C8 at a concrete snapshot: one member with only a name (all
other fields missing). -/
theorem C8_witness :
    ∃ l, build_candidates { members := [{ name := some "Solo" }] } [] = .ok l ∧
      ∀ mem ∈ ({ members := [{ name := some "Solo" }] } : SiteData).members,
        pyStrip (mem.name.getD "") ≠ "" →
          ∃ c, c ∈ l ∧ pyLower c.text = pyLower (pyStrip (mem.name.getD "")) :=
  C8_missing_fields_default { members := [{ name := some "Solo" }] } [] (by decide)

/-! ## Claim C4 — at most five suggestions, case-insensitively distinct -/

/-- The C4 property of a suggestion list. -/
def suggListOk (l : List String) : Prop :=
  l.length ≤ 5 ∧ (l.map pyLower).Nodup

/-- A cache hit exposes a stored entry. -/
theorem cacheLookup_some (st : GState) (k : CKey) (nowTs ttl : ℚ) (e : CEntry)
    (h : cacheLookup st k nowTs ttl = some e) : st.cache k = some e := by
  unfold cacheLookup at h
  cases hx : st.cache k with
  | none => rw [hx] at h; simp at h
  | some e' =>
    rw [hx] at h
    simp only [Option.ite_none_right_eq_some, Option.some.injEq] at h
    rw [h.2]

/-- C4: every `rank_candidates` result — across the cache-hit, cold-start and
full-pipeline paths — returns at most five suggestions with pairwise distinct
lower-casings, provided every already-cached entry satisfies the same property
(which the theorem also shows is preserved by the call, so it is an invariant of
the system whose cache starts empty). -/
theorem C4_suggestions_bounded_nodup (co : Collab) (manual : List MRecord)
    (prefs negs : String → Option ℚ) (succ : List String) (weekday hm : String)
    (nowTs ttl : ℚ) (query : String) (site : SiteData) (uid : String)
    (history : List String) (lat lon : Option ℚ) (debug : Bool) (st : GState)
    (out : RankOut) (st' : GState)
    (hcache : ∀ k e, st.cache k = some e → suggListOk e.suggestions)
    (hok : rank_candidates co manual prefs negs succ weekday hm nowTs ttl query site
      uid history lat lon debug st = .ok (out, st')) :
    suggListOk out.suggestions ∧
      (∀ k e, st'.cache k = some e → suggListOk e.suggestions) := by
  unfold rank_candidates at hok
  cases hl : cacheLookup st (mkKey query uid lat lon site) nowTs ttl with
  | some e =>
    rw [hl] at hok
    simp only [Except.ok.injEq, Prod.mk.injEq] at hok
    obtain ⟨h1, h2⟩ := hok
    subst h2
    have he := hcache _ _ (cacheLookup_some st _ nowTs ttl e hl)
    constructor
    · rw [← h1]
      exact he
    · exact hcache
  | none =>
    rw [hl] at hok
    unfold rankMiss at hok
    cases hb : build_candidates site manual with
    | error u => rw [hb] at hok; exact absurd hok (by simp)
    | ok candidates =>
      rw [hb] at hok
      dsimp only at hok
      by_cases hc : candidates = []
      · rw [if_pos hc] at hok
        have hcold : coldList manual = [] :=
          coldList_nil_of_manualCands_nil manual
            (manualCands_nil_of_build_nil site manual (hc ▸ hb))
        simp only [Except.ok.injEq, Prod.mk.injEq] at hok
        obtain ⟨h1, h2⟩ := hok
        subst h2
        constructor
        · rw [← h1]
          simp only [hcold, List.take_nil]
          constructor
          · simp
          · simp
        · exact hcache
      · rw [if_neg hc] at hok
        simp only [Except.ok.injEq, Prod.mk.injEq] at hok
        obtain ⟨h1, h2⟩ := hok
        have hfin := finalTake_ok
          (buildSuggestions ((sortScores (scoreCands co manual prefs negs succ weekday hm
            query site history lat lon (st.uhc uid) candidates)).take 5)
            ((co.ner query).head?) (detect_intent query)) [] []
          (by simp) (by simp) (by norm_num)
        constructor
        · rw [← h1]
          exact hfin
        · intro k e hke
          rw [← h2] at hke
          simp only at hke
          by_cases hkk : k = mkKey query uid lat lon site
          · rw [if_pos hkk] at hke
            have : e.suggestions = finalTake [] []
                (buildSuggestions ((sortScores (scoreCands co manual prefs negs succ weekday
                  hm query site history lat lon (st.uhc uid) candidates)).take 5)
                  ((co.ner query).head?) (detect_intent query)) := by
              rw [← Option.some.injEq] at hke
              cases hke
              rfl
            rw [this]
            exact hfin
          · rw [if_neg hkk] at hke
            exact hcache k e hke

/-- Witness for C4: the empty snapshot at the empty state takes the cold path and
returns the single fallback suggestion. -/
theorem C4_witness :
    suggListOk (RankOut.mk ["Popular services near you"] [] none).suggestions ∧
      (∀ k e, stEmpty.cache k = some e → suggListOk e.suggestions) :=
  C4_suggestions_bounded_nodup collabOne [] noPrefs noPrefs [] "mon" "12:00" 0 300
    "help" {} "u" [] none none false stEmpty (RankOut.mk ["Popular services near you"] [] none)
    stEmpty (fun _ _ h => nomatch h) rfl

/-! ## Claim C6 — blacklist filter is a hard exclusion -/

/-- A candidate whose text contains a blacklist term (case-insensitively) is
dropped by the boost loop, whatever its base score. -/
theorem processCand_blacklist (ctx : BoostCtx) (cand : Candidate) (sc : ℚ) (b : String)
    (hb : b ∈ ctx.blacklist) (hm : pyIn b (pyLower cand.text) = true) :
    processCand ctx cand sc = none := by
  unfold processCand
  rw [if_pos ⟨List.ne_nil_of_mem hb, List.any_eq_true.mpr ⟨b, hb, hm⟩⟩]

/-- A surviving tuple of the boost loop carries its input candidate. -/
theorem processCand_some_fst (ctx : BoostCtx) (cand : Candidate) (sc : ℚ)
    (x : Candidate × ℚ × Option ℚ) (h : processCand ctx cand sc = some x) :
    x.1 = cand := by
  unfold processCand at h
  by_cases hbl : ctx.blacklist ≠ [] ∧ ctx.blacklist.any (fun b => pyIn b (pyLower cand.text))
  · rw [if_pos hbl] at h
    exact absurd h (by simp)
  · rw [if_neg hbl] at h
    by_cases hk : (geoStep ctx.dist ctx.lat ctx.lon ctx.radius cand).keep
    · rw [if_pos hk] at h
      cases h
      rfl
    · rw [if_neg hk] at h
      exact absurd h (by simp)

/-- No tuple of the post-filter score list has a blacklist-matching text. -/
theorem scoreCands_no_blacklist (co : Collab) (manual : List MRecord)
    (prefs negs : String → Option ℚ) (succ : List String) (weekday hm : String)
    (query : String) (site : SiteData) (history : List String) (lat lon : Option ℚ)
    (uhcU : List String) (candidates : List Candidate) (b : String)
    (hb : b ∈ get_blacklist manual) :
    ∀ x ∈ scoreCands co manual prefs negs succ weekday hm query site history lat lon
      uhcU candidates, pyIn b (pyLower x.1.text) = false := by
  intro x hx
  unfold scoreCands at hx
  rcases List.mem_filterMap.mp hx with ⟨p, _, hpc⟩
  have hfst := processCand_some_fst _ _ _ _ hpc
  by_contra hcon
  have hm : pyIn b (pyLower x.1.text) = true := by
    cases hv : pyIn b (pyLower x.1.text)
    · exact absurd hv hcon
    · rfl
  rw [hfst] at hm
  rw [processCand_blacklist _ _ _ b hb hm] at hpc
  exact absurd hpc (by simp)

/-- Every card's title is the text of one of the top candidates it was built
from. -/
theorem buildCards_title (top : List (Candidate × ℚ × Option ℚ)) :
    ∀ card ∈ buildCards top, ∃ x, x ∈ top ∧ card.title = x.1.text := by
  intro card hc
  unfold buildCards at hc
  rcases List.mem_filterMap.mp hc with ⟨x, hx, hsome⟩
  refine ⟨x, hx, ?_⟩
  by_cases hcond : (x.1.ctype = "member" ∨ x.1.ctype = "tag" ∨ x.1.ctype = "review") ∧
      (truthyS x.1.profile_url ∨ truthyS x.1.id)
  · rw [if_pos hcond] at hsome
    cases hsome
    rfl
  · rw [if_neg hcond] at hsome
    exact absurd hsome (by simp)

/-- A never-stored key misses the cache. -/
theorem cacheLookup_none (st : GState) (k : CKey) (nowTs ttl : ℚ)
    (h : st.cache k = none) : cacheLookup st k nowTs ttl = none := by
  unfold cacheLookup
  rw [h]

/-- C6: if any blacklist term (as served by `get_blacklist`) occurs
case-insensitively inside a text `t`, then a candidate with text `t` survives
nowhere in the scored list — whatever its base score — and, on a fresh cache
key, no returned card is titled `t`.  (Suggestions are rendered only from
surviving candidates, so none is contributed by such a candidate either.) -/
theorem C6_blacklist_hard_exclusion (co : Collab) (manual : List MRecord)
    (prefs negs : String → Option ℚ) (succ : List String) (weekday hm : String)
    (nowTs ttl : ℚ) (query : String) (site : SiteData) (uid : String)
    (history : List String) (lat lon : Option ℚ) (debug : Bool) (st : GState)
    (b t : String) (out : RankOut)
    (hb : b ∈ get_blacklist manual)
    (hmatch : pyIn b (pyLower t) = true)
    (hfresh : st.cache (mkKey query uid lat lon site) = none)
    (hout : rankOut co manual prefs negs succ weekday hm nowTs ttl query site uid
      history lat lon debug st = some out) :
    (∀ candidates, build_candidates site manual = .ok candidates →
      ∀ x ∈ scoreCands co manual prefs negs succ weekday hm query site history lat lon
        (st.uhc uid) candidates, x.1.text ≠ t) ∧
    (∀ card ∈ out.cards, card.title ≠ t) := by
  have part1 : ∀ candidates, build_candidates site manual = .ok candidates →
      ∀ x ∈ scoreCands co manual prefs negs succ weekday hm query site history lat lon
        (st.uhc uid) candidates, x.1.text ≠ t := by
    intro candidates _ x hx heq
    have := scoreCands_no_blacklist co manual prefs negs succ weekday hm query site
      history lat lon (st.uhc uid) candidates b hb x hx
    rw [heq, hmatch] at this
    exact absurd this (by simp)
  refine ⟨part1, ?_⟩
  unfold rankOut rank_candidates at hout
  rw [cacheLookup_none st _ nowTs ttl hfresh] at hout
  unfold rankMiss at hout
  cases hbld : build_candidates site manual with
  | error u => rw [hbld] at hout; exact absurd hout (by simp [Except.toOption])
  | ok candidates =>
    rw [hbld] at hout
    dsimp only at hout
    by_cases hc : candidates = []
    · rw [if_pos hc] at hout
      simp only [Except.toOption, Option.map, Option.some.injEq] at hout
      rw [← hout]
      intro card hcard
      simp at hcard
    · rw [if_neg hc] at hout
      simp only [Except.toOption, Option.map, Option.some.injEq] at hout
      rw [← hout]
      intro card hcard heq
      dsimp only at hcard
      rcases buildCards_title _ card hcard with ⟨x, hxtop, hxt⟩
      have hxin : x ∈ scoreCands co manual prefs negs succ weekday hm query site history
          lat lon (st.uhc uid) candidates :=
        mem_sortScores x _ (List.take_subset 5 _ hxtop)
      exact part1 candidates hbld x hxin (by rw [← hxt, heq])

/-- Concrete fixtures for the C6 witness: a blacklist row `"spam"` and a member
`"Spam King"`. -/
def manualSpam : List MRecord := [{ kind := MKind.blacklist, term := some "spam" }]

def siteSpam : SiteData := { members := [{ name := some "Spam King", id := some "m1" }] }

/-- Witness for C6: with blacklist term `"spam"`, the member `"Spam King"` is
dropped — the pipeline returns no suggestions and no cards at all. -/
theorem C6_witness :
    (∀ candidates, build_candidates siteSpam manualSpam = .ok candidates →
      ∀ x ∈ scoreCands collabOne manualSpam noPrefs noPrefs [] "mon" "12:00" "fix"
        siteSpam [] none none (stEmpty.uhc "u") candidates, x.1.text ≠ "Spam King") ∧
    (∀ card ∈ (RankOut.mk [] [] none).cards, card.title ≠ "Spam King") :=
  C6_blacklist_hard_exclusion collabOne manualSpam noPrefs noPrefs [] "mon" "12:00"
    0 300 "fix" siteSpam "u" [] none none false stEmpty "spam" "Spam King"
    (RankOut.mk [] [] none) (by decide) (by decide) rfl (by decide)

/-! ## Claim C1 — coordinate geo boost and radius hard filter -/

/-- With truthy caller coordinates, a configured radius, and numeric candidate
coordinates, the geo step computes the decay boost, the distance, and the
radius-filter verdict. -/
theorem geoStep_numeric (dist : ℚ → ℚ → ℚ → ℚ → ℚ) (la lo r : ℚ) (cand : Candidate)
    (cl₂ co₂ : ℚ) (hla : la ≠ 0) (hlo : lo ≠ 0)
    (hlat : cand.latitude = some (.num cl₂)) (hlon : cand.longitude = some (.num co₂)) :
    geoStep dist (some la) (some lo) (some r) cand =
      { boost := geoDecay (dist la lo cl₂ co₂), distKm := some (dist la lo cl₂ co₂),
        keep := decide (dist la lo cl₂ co₂ ≤ r) } := by
  unfold geoStep
  rw [hlat, hlon]
  rw [if_pos (by simp [truthyQ, hla, hlo])]
  rfl

/-- A survivor of the boost loop passed the geo radius filter. -/
theorem processCand_some_keep (ctx : BoostCtx) (cand : Candidate) (sc : ℚ)
    (x : Candidate × ℚ × Option ℚ) (h : processCand ctx cand sc = some x) :
    (geoStep ctx.dist ctx.lat ctx.lon ctx.radius cand).keep = true := by
  unfold processCand at h
  by_cases hbl : ctx.blacklist ≠ [] ∧ ctx.blacklist.any (fun b => pyIn b (pyLower cand.text))
  · rw [if_pos hbl] at h
    exact absurd h (by simp)
  · rw [if_neg hbl] at h
    by_cases hk : (geoStep ctx.dist ctx.lat ctx.lon ctx.radius cand).keep
    · exact hk
    · rw [if_neg hk] at h
      exact absurd h (by simp)

/-- The candidate of every tuple of the score list is one of the built
candidates. -/
theorem scoreCands_fst_mem (co : Collab) (manual : List MRecord)
    (prefs negs : String → Option ℚ) (succ : List String) (weekday hm : String)
    (query : String) (site : SiteData) (history : List String) (lat lon : Option ℚ)
    (uhcU : List String) (candidates : List Candidate)
    (x : Candidate × ℚ × Option ℚ)
    (hx : x ∈ scoreCands co manual prefs negs succ weekday hm query site history lat lon
      uhcU candidates) : x.1 ∈ candidates := by
  unfold scoreCands at hx
  rcases List.mem_filterMap.mp hx with ⟨p, hp, hpc⟩
  obtain ⟨p1, p2⟩ := p
  have hfst := processCand_some_fst _ _ _ _ hpc
  unfold hybrid_rank at hp
  rw [hfst]
  exact (List.of_mem_zip hp).1

/-- Every survivor of the score list with numeric coordinates lies within the
configured radius (caller coordinates truthy, radius configured). -/
theorem scoreCands_within_radius (co : Collab) (manual : List MRecord)
    (prefs negs : String → Option ℚ) (succ : List String) (weekday hm : String)
    (query : String) (site : SiteData) (history : List String) (la lo r : ℚ)
    (uhcU : List String) (candidates : List Candidate)
    (hla : la ≠ 0) (hlo : lo ≠ 0) (hrad : site.settings.radius_km = some r) :
    ∀ x ∈ scoreCands co manual prefs negs succ weekday hm query site history (some la)
      (some lo) uhcU candidates,
      ∀ cl₂ co₂ : ℚ, x.1.latitude = some (.num cl₂) → x.1.longitude = some (.num co₂) →
        co.dist la lo cl₂ co₂ ≤ r := by
  intro x hx cl₂ co₂ hlat hlon
  unfold scoreCands at hx
  rcases List.mem_filterMap.mp hx with ⟨p, _, hpc⟩
  have hfst := processCand_some_fst _ _ _ _ hpc
  have hkeep := processCand_some_keep _ _ _ _ hpc
  rw [hfst] at hlat hlon
  simp only [hrad] at hkeep
  rw [geoStep_numeric co.dist la lo r p.1 cl₂ co₂ hla hlo hlat hlon] at hkeep
  exact of_decide_eq_true hkeep

/-- C1 (amended): when the caller supplies NONZERO latitude and longitude
(Python truthiness also skips the whole geo block at a zero coordinate — see the
counterexample), the catalog configures a radius, and a candidate carries
numeric coordinates whose distance from the caller exceeds that radius, that
candidate survives nowhere in the scored list (so it contributes no suggestion)
and, on a fresh cache key, no returned card carries its title; and the geo step
of any candidate at distance at most 5 km computes the distance-based boost
`+0.15`, dropping it only if the distance exceeds the radius. -/
theorem C1_radius_filter_and_boost (co : Collab) (manual : List MRecord)
    (prefs negs : String → Option ℚ) (succ : List String) (weekday hm : String)
    (nowTs ttl : ℚ) (query : String) (site : SiteData) (uid : String)
    (history : List String) (debug : Bool) (st : GState)
    (la lo r cl co₂ : ℚ) (cand : Candidate) (candidates : List Candidate) (out : RankOut)
    (hla : la ≠ 0) (hlo : lo ≠ 0)
    (hrad : site.settings.radius_km = some r)
    (hclat : cand.latitude = some (.num cl)) (hclon : cand.longitude = some (.num co₂))
    (hfar : co.dist la lo cl co₂ > r)
    (hbld : build_candidates site manual = .ok candidates)
    (hmem : cand ∈ candidates)
    (hfresh : st.cache (mkKey query uid (some la) (some lo) site) = none)
    (hout : rankOut co manual prefs negs succ weekday hm nowTs ttl query site uid
      history (some la) (some lo) debug st = some out) :
    (∀ x ∈ scoreCands co manual prefs negs succ weekday hm query site history (some la)
      (some lo) (st.uhc uid) candidates, x.1 ≠ cand ∧ x.1.text ≠ cand.text) ∧
    (∀ card ∈ out.cards, card.title ≠ cand.text) ∧
    (∀ (cand₂ : Candidate) (cl₃ co₃ : ℚ), cand₂.latitude = some (.num cl₃) →
      cand₂.longitude = some (.num co₃) → co.dist la lo cl₃ co₃ ≤ 5 →
      (geoStep co.dist (some la) (some lo) (some r) cand₂).boost = 3/20 ∧
      (geoStep co.dist (some la) (some lo) (some r) cand₂).keep =
        decide (co.dist la lo cl₃ co₃ ≤ r)) := by
  have hnodup := build_candidates_nodup site manual candidates hbld
  have hscores : ∀ x ∈ scoreCands co manual prefs negs succ weekday hm query site history
      (some la) (some lo) (st.uhc uid) candidates, x.1 ≠ cand ∧ x.1.text ≠ cand.text := by
    intro x hx
    have hne : x.1 ≠ cand := by
      intro heq
      have := scoreCands_within_radius co manual prefs negs succ weekday hm query site
        history la lo r (st.uhc uid) candidates hla hlo hrad x hx cl co₂
        (heq ▸ hclat) (heq ▸ hclon)
      exact absurd this (not_le.mpr hfar)
    refine ⟨hne, ?_⟩
    intro heqt
    have hx1 : x.1 ∈ candidates := scoreCands_fst_mem co manual prefs negs succ weekday hm
      query site history (some la) (some lo) (st.uhc uid) candidates x hx
    exact hne (List.inj_on_of_nodup_map hnodup hx1 hmem (by rw [heqt]))
  refine ⟨hscores, ?_, ?_⟩
  · unfold rankOut rank_candidates at hout
    rw [cacheLookup_none st _ nowTs ttl hfresh] at hout
    unfold rankMiss at hout
    rw [hbld] at hout
    dsimp only at hout
    by_cases hc : candidates = []
    · exact absurd (hc ▸ hmem) (List.not_mem_nil cand)
    · rw [if_neg hc] at hout
      simp only [Except.toOption, Option.map, Option.some.injEq] at hout
      rw [← hout]
      intro card hcard heq
      dsimp only at hcard
      rcases buildCards_title _ card hcard with ⟨x, hxtop, hxt⟩
      have hxin := mem_sortScores x _ (List.take_subset 5 _ hxtop)
      exact (hscores x hxin).2 (by rw [← hxt, heq])
  · intro cand₂ cl₃ co₃ hlat₂ hlon₂ hnear
    rw [geoStep_numeric co.dist la lo r cand₂ cl₃ co₃ hla hlo hlat₂ hlon₂]
    exact ⟨by unfold geoDecay; rw [if_pos hnear], rfl⟩

/-- Geo fixtures: one member with numeric coordinates, configured radius 10 km,
and a distance collaborator that reports 100 km for every pair. -/
def siteGeo : SiteData :=
  { members := [{ name := some "Mikes", id := some "m1",
                  latitude := some (.num 40), longitude := some (.num 41) }],
    settings := { radius_km := some 10 } }

def collabFar : Collab :=
  { sem := fun _ ts => ts.map (fun _ => 1),
    lex := fun cs _ => cs.map (fun _ => 1),
    ner := fun _ => [],
    dist := fun _ _ _ _ => 100 }

/-- The single candidate `build_candidates` produces from `siteGeo`. -/
def candMikes : Candidate :=
  { text := "Mikes", ctype := "member", id := some "m1",
    latitude := some (.num 40), longitude := some (.num 41) }

/-- C1 (claim as stated) is FALSE at a zero caller coordinate: the caller
supplies latitude `0` and longitude `50`, the radius is 10 km and the candidate
is 100 km away, yet the candidate still appears as a card (and its suggestion
strings are returned), because `if user_lat and user_lon` treats the
latitude `0.0` as falsy and skips both the geo boost and the radius filter. -/
theorem C1_cex :
    collabFar.dist 0 50 40 41 > (10 : ℚ) ∧
    siteGeo.settings.radius_km = some 10 ∧
    (rankOut collabFar [] noPrefs noPrefs [] "mon" "12:00" 0 300 "fix" siteGeo "u" []
      (some 0) (some 50) false stEmpty).map (fun o => o.cards.map (fun c => c.title)) =
      some ["Mikes"] := by
  refine ⟨by decide, rfl, by decide⟩

/-- Witness for the amended C1: with nonzero caller coordinates the same
candidate is dropped — the pipeline returns no suggestions and no cards. -/
theorem C1_witness :
    (∀ x ∈ scoreCands collabFar [] noPrefs noPrefs [] "mon" "12:00" "fix" siteGeo []
      (some 1) (some 1) (stEmpty.uhc "u") [candMikes],
      x.1 ≠ candMikes ∧ x.1.text ≠ candMikes.text) ∧
    (∀ card ∈ (RankOut.mk [] [] none).cards, card.title ≠ candMikes.text) ∧
    (∀ (cand₂ : Candidate) (cl₃ co₃ : ℚ), cand₂.latitude = some (.num cl₃) →
      cand₂.longitude = some (.num co₃) → collabFar.dist 1 1 cl₃ co₃ ≤ 5 →
      (geoStep collabFar.dist (some 1) (some 1) (some 10) cand₂).boost = 3/20 ∧
      (geoStep collabFar.dist (some 1) (some 1) (some 10) cand₂).keep =
        decide (collabFar.dist 1 1 cl₃ co₃ ≤ 10)) :=
  C1_radius_filter_and_boost collabFar [] noPrefs noPrefs [] "mon" "12:00" 0 300 "fix"
    siteGeo "u" [] false stEmpty 1 1 10 40 41 candMikes [candMikes]
    (RankOut.mk [] [] none) (by norm_num) (by norm_num) rfl rfl rfl (by decide)
    rfl (by decide) rfl (by decide)

/-! ## Claim C3 — persistence failure and the request outcome -/

/-- C3 is CONTRADICTED by the code: `save_search_interaction` is called inside
the same `try` as the response construction with no inner handler, so when the
interaction-log write raises, the `/suggest` handler returns the generic 500
error instead of the already-computed suggestions.  First conjunct: the same
request with a healthy store returns the suggestions; second: with a failing
store the caller gets `serverError` and no suggestions. -/
theorem C3_persistence_failure_fails_request :
    (suggest collabOne [] noPrefs noPrefs [] "mon" "12:00" 0 300 " plumber " {} "u" []
      none none false true stEmpty).1 =
      SuggestResp.ok ["Popular services near you"] [] none ∧
    (suggest collabOne [] noPrefs noPrefs [] "mon" "12:00" 0 300 " plumber " {} "u" []
      none none false false stEmpty).1 = SuggestResp.serverError := by
  refine ⟨by decide, by decide⟩

/-! ## Claim C10 — outputs are independent of the whitelist -/

/-- The manual rows that are not whitelist rows. -/
def stripWhitelist (manual : List MRecord) : List MRecord :=
  manual.filter (fun r => ¬ r.kind = MKind.whitelist)

/-- Whitelist rows emit no candidates, so the builder sees only the rest. -/
theorem manualCands_strip : ∀ manual : List MRecord,
    manualCands (stripWhitelist manual) = manualCands manual
  | [] => rfl
  | r :: rs => by
    have ih := manualCands_strip rs
    cases hk : r.kind <;>
      simp_all [stripWhitelist, manualCands, List.filter_cons, hk]

/-- Filtering by a predicate that rejects whitelist rows commutes with dropping
the whitelist rows. -/
theorem filter_strip (p : MRecord → Bool)
    (hp : ∀ r : MRecord, r.kind = MKind.whitelist → p r = false) :
    ∀ manual : List MRecord, (stripWhitelist manual).filter p = manual.filter p
  | [] => rfl
  | r :: rs => by
    have ih := filter_strip p hp rs
    by_cases hw : r.kind = MKind.whitelist
    · rw [stripWhitelist, List.filter_cons_of_neg (by simp [hw]), ← stripWhitelist,
        List.filter_cons_of_neg (by simp [hp r hw]), ih]
    · rw [stripWhitelist, List.filter_cons_of_pos (by simp [hw]), ← stripWhitelist,
        List.filter_cons, List.filter_cons]
      cases hpr : p r
      · simpa using ih
      · simpa using ih

/-- The blacklist view ignores whitelist rows. -/
theorem get_blacklist_strip (manual : List MRecord) :
    get_blacklist (stripWhitelist manual) = get_blacklist manual := by
  unfold get_blacklist
  congr 1
  exact filter_strip _ (fun r hr => by simp [hr]) manual

/-- The synonym view ignores whitelist rows. -/
theorem get_synonyms_strip (manual : List MRecord) :
    get_synonyms_map (stripWhitelist manual) = get_synonyms_map manual := by
  unfold get_synonyms_map
  congr 1
  exact filter_strip _ (fun r hr => by simp [hr]) manual

/-- The cold-start name list ignores whitelist rows. -/
theorem coldList_strip (manual : List MRecord) :
    coldList (stripWhitelist manual) = coldList manual := by
  unfold coldList
  rw [filter_strip _ (fun r hr => by simp [hr]) manual,
    filter_strip _ (fun r hr => by simp [hr]) manual]

/-- C10: the whole ranking result — suggestions, cards, debug trace, and even
the updated global state — is independent of the whitelist rows of the manual
store: two manual stores that agree outside their whitelist rows produce
identical `rank_candidates` results.  (The source fetches `get_whitelist` but
its check body is `pass`.) -/
theorem C10_whitelist_independent (co : Collab) (prefs negs : String → Option ℚ)
    (succ : List String) (weekday hm : String) (nowTs ttl : ℚ) (query : String)
    (site : SiteData) (uid : String) (history : List String) (lat lon : Option ℚ)
    (debug : Bool) (st : GState) (m₁ m₂ : List MRecord)
    (h : stripWhitelist m₁ = stripWhitelist m₂) :
    rank_candidates co m₁ prefs negs succ weekday hm nowTs ttl query site uid history
      lat lon debug st =
    rank_candidates co m₂ prefs negs succ weekday hm nowTs ttl query site uid history
      lat lon debug st := by
  have hmc : manualCands m₁ = manualCands m₂ := by
    rw [← manualCands_strip m₁, h, manualCands_strip m₂]
  have hbl : get_blacklist m₁ = get_blacklist m₂ := by
    rw [← get_blacklist_strip m₁, h, get_blacklist_strip m₂]
  have hsy : get_synonyms_map m₁ = get_synonyms_map m₂ := by
    rw [← get_synonyms_strip m₁, h, get_synonyms_strip m₂]
  have hcl : coldList m₁ = coldList m₂ := by
    rw [← coldList_strip m₁, h, coldList_strip m₂]
  simp only [rank_candidates, rankMiss, build_candidates, emitCandidates, scoreCands,
    hybrid_rank, hmc, hbl, hsy, hcl]

/-- Whitelist fixtures for the C10 witness. -/
def manualWL : List MRecord :=
  [{ kind := MKind.category, name := some "Plumbing" },
   { kind := MKind.whitelist, term := some "gold" }]

def manualNoWL : List MRecord := [{ kind := MKind.category, name := some "Plumbing" }]

/-- Witness for C10: adding a whitelist row changes nothing. -/
theorem C10_witness :
    rank_candidates collabOne manualWL noPrefs noPrefs [] "mon" "12:00" 0 300 "help"
      {} "u" [] none none false stEmpty =
    rank_candidates collabOne manualNoWL noPrefs noPrefs [] "mon" "12:00" 0 300 "help"
      {} "u" [] none none false stEmpty :=
  C10_whitelist_independent collabOne noPrefs noPrefs [] "mon" "12:00" 0 300 "help"
    {} "u" [] none none false stEmpty manualWL manualNoWL (by decide)

/-! ## Claim C5 — TTL cache on repeated identical requests -/

/-- A stored entry within its TTL window is a cache hit. -/
theorem cacheLookup_hit (st : GState) (k : CKey) (nowTs ttl : ℚ) (e : CEntry)
    (h : st.cache k = some e) (ht : nowTs - e.ts ≤ ttl) :
    cacheLookup st k nowTs ttl = some e := by
  unfold cacheLookup
  rw [h]
  show (if nowTs - e.ts ≤ ttl then some e else none) = some e
  rw [if_pos ht]

/-- C5 (amended): two `rank_candidates` calls with the same query, user id,
coordinates (hence the same computed intent and configured radius) AND the same
catalog snapshot and server-side stores, where the first finds its key uncached
and the second runs within the TTL window of the first, return identical
suggestion and card lists — and the second call's output does not depend on the
embedding or lexical collaborators at all (it is the same for every `sem'` and
`lex'`), because it is served from the cache (or, cold, without scoring).  The
caller-supplied history, the debug flag and the wall clock may differ. -/
theorem C5_cache_identical_no_scoring (co : Collab) (manual : List MRecord)
    (prefs negs : String → Option ℚ) (succ : List String)
    (wd1 hm1 wd2 hm2 : String) (ts1 ts2 ttl : ℚ) (query : String) (site : SiteData)
    (uid : String) (hist1 hist2 : List String) (lat lon : Option ℚ)
    (dbg1 dbg2 : Bool) (st0 st1 : GState) (out1 : RankOut)
    (hfresh : st0.cache (mkKey query uid lat lon site) = none)
    (h1 : rank_candidates co manual prefs negs succ wd1 hm1 ts1 ttl query site uid
      hist1 lat lon dbg1 st0 = .ok (out1, st1))
    (httl : ts2 - ts1 ≤ ttl) :
    ∀ (sem' : String → List String → List ℚ)
      (lex' : List (List String) → List String → List ℚ),
      ∃ out2 st2,
        rank_candidates { co with sem := sem', lex := lex' } manual prefs negs succ
          wd2 hm2 ts2 ttl query site uid hist2 lat lon dbg2 st1 = .ok (out2, st2) ∧
        out2.suggestions = out1.suggestions ∧ out2.cards = out1.cards := by
  intro sem' lex'
  unfold rank_candidates at h1
  rw [cacheLookup_none st0 _ ts1 ttl hfresh] at h1
  unfold rankMiss at h1
  cases hb : build_candidates site manual with
  | error u => rw [hb] at h1; exact absurd h1 (by simp)
  | ok candidates =>
    rw [hb] at h1
    dsimp only at h1
    by_cases hc : candidates = []
    · rw [if_pos hc] at h1
      simp only [Except.ok.injEq, Prod.mk.injEq] at h1
      obtain ⟨hout1, hst1⟩ := h1
      subst hst1
      refine ⟨{ suggestions := if (coldList manual).take 5 = []
                  then ["Popular services near you"] else (coldList manual).take 5,
                cards := [],
                debug := if dbg2 then some DbgInfo.cold else none }, st0, ?_, ?_, ?_⟩
      · unfold rank_candidates
        rw [cacheLookup_none st0 _ ts2 ttl hfresh]
        unfold rankMiss
        rw [hb]
        dsimp only
        rw [if_pos hc]
      · rw [← hout1]
      · rw [← hout1]
    · rw [if_neg hc] at h1
      simp only [Except.ok.injEq, Prod.mk.injEq] at h1
      obtain ⟨hout1, hst1⟩ := h1
      subst hst1
      obtain ⟨s1, c1, d1⟩ := out1
      simp only [RankOut.mk.injEq] at hout1
      obtain ⟨hF, hC, hD⟩ := hout1
      rw [hF, hC, hD]
      refine ⟨{ suggestions := s1, cards := c1, debug := if dbg2 then d1 else none },
        { cache := fun k => if k = mkKey query uid lat lon site
            then some { ts := ts1, suggestions := s1, cards := c1, debug := d1 }
            else st0.cache k,
          uhc := fun u => if u = uid then
              (if query ∈ st0.uhc uid then st0.uhc uid else st0.uhc uid ++ [query])
            else st0.uhc u,
          popular := fun s => if s = pyLower query then st0.popular s + 1
            else st0.popular s }, ?_, rfl, rfl⟩
      unfold rank_candidates
      have hstc : GState.cache
          { cache := fun k => if k = mkKey query uid lat lon site
              then some { ts := ts1, suggestions := s1, cards := c1, debug := d1 }
              else st0.cache k,
            uhc := fun u => if u = uid then
                (if query ∈ st0.uhc uid then st0.uhc uid else st0.uhc uid ++ [query])
              else st0.uhc u,
            popular := fun s => if s = pyLower query then st0.popular s + 1
              else st0.popular s }
          (mkKey query uid lat lon site) =
          some { ts := ts1, suggestions := s1, cards := c1, debug := d1 } := by
        show (if mkKey query uid lat lon site = mkKey query uid lat lon site
            then some { ts := ts1, suggestions := s1, cards := c1, debug := d1 }
            else st0.cache (mkKey query uid lat lon site)) = _
        rw [if_pos rfl]
      rw [cacheLookup_hit _ _ ts2 ttl _ hstc (by exact httl)]

/-- A snapshot with one catalog category, used to contrast with the empty
snapshot in the C5 counterexample. -/
def sitePlumb : SiteData := { categories := [{ top_category := some "Plumbing" }] }

/-- C5 (claim as stated) is FALSE: the claim fixes only (query, user id,
latitude, longitude, intent, configured radius).  Two requests agreeing on all
six — the first against an empty snapshot, the second against `sitePlumb`
(same absent radius, same query hence same intent) — have equal cache
fingerprints and run within the TTL window, yet return different suggestion
lists: the cold-start path of the first request never writes a cache entry, so
the second request re-runs the full pipeline on its own catalog. -/
theorem C5_cex :
    mkKey "help" "u" none none {} = mkKey "help" "u" none none sitePlumb ∧
    ((0 : ℚ) - 0 ≤ 300) ∧
    ∃ out1 st1, rank_candidates collabOne [] noPrefs noPrefs [] "mon" "12:00" 0 300
        "help" {} "u" [] none none false stEmpty = .ok (out1, st1) ∧
      ∃ out2 st2, rank_candidates collabOne [] noPrefs noPrefs [] "mon" "12:00" 0 300
          "help" sitePlumb "u" [] none none false st1 = .ok (out2, st2) ∧
        out2.suggestions ≠ out1.suggestions := by
  refine ⟨rfl, by norm_num, RankOut.mk ["Popular services near you"] [] none, stEmpty,
    rfl, ?_⟩
  refine ⟨_, _, rfl, ?_⟩
  decide

/-- Witness for the amended C5, in the cold configuration: the first call leaves
the state unchanged, and the second call (with arbitrary other collaborators —
here constant-zero scorers) returns the same suggestions and cards. -/
theorem C5_witness :
    ∃ out2 st2,
      rank_candidates
          { collabOne with sem := fun _ _ => [], lex := fun _ _ => [] } [] noPrefs
          noPrefs [] "tue" "09:00" 100 300 "help" {} "u" ["other history"] none none
          true stEmpty =
        .ok (out2, st2) ∧
      out2.suggestions = (RankOut.mk ["Popular services near you"] [] none).suggestions ∧
      out2.cards = (RankOut.mk ["Popular services near you"] [] none).cards :=
  C5_cache_identical_no_scoring collabOne [] noPrefs noPrefs [] "mon" "12:00" "tue"
    "09:00" 0 100 300 "help" {} "u" [] ["other history"] none none false true stEmpty
    stEmpty (RankOut.mk ["Popular services near you"] [] none) rfl rfl (by norm_num)
    (fun _ _ => []) (fun _ _ => [])
